import Mathlib

/-
Verification development for the LEBscripts localisation-conversion pipeline:
`createMovieInfo.py` and `lib/readLocalisations.py`, shallowly embedded.

Numeric model: a floating-point cell is `Val` — an exact rational for finite
values, with `Val.nan` standing for any IEEE non-finite result (the np.NaN
fill values, and the outcome of a division by zero).  A 2-D numpy array is a
list of row lists; column-wise numpy operations are modelled as per-row maps
over the same table.  Fallible Python code (assertions, unbound local
variables, numpy errors on empty reductions or bad indices) is modelled with
`Except`.
-/

/-- Idealised floating-point cell value: `num q` is a finite value with exact
rational magnitude, `nan` stands for a non-finite value (np.NaN and the
result of dividing by zero). -/
inductive Val where
  | num (q : ℚ)
  | nan
deriving DecidableEq, Repr

/-- Python / numpy equality test between two floating-point values: finite
values compare by magnitude, a non-finite value compares unequal to
everything (including itself, as IEEE NaN does). -/
def veq : Val → Val → Bool
  | .num a, .num b => a == b
  | _, _ => false

/-- Floating-point division as used by the source: exact on finite operands,
with `nan` standing in for the non-finite result of a division by zero or by
a non-finite operand. -/
def vdiv : Val → Val → Val
  | .num a, .num b => if b = 0 then .nan else .num (a / b)
  | _, _ => .nan

/-- Binary maximum with NaN propagation, as `np.max` folds it. -/
def vmax : Val → Val → Val
  | .num a, .num b => .num (max a b)
  | _, _ => .nan

/-- Python `int(...)` on a finite float: truncation toward zero. -/
def truncQ (q : ℚ) : Int := q.num.tdiv (q.den : Int)

/- ----------------------------------------------------------------- -/
/- lib/readLocalisations.py                                          -/
/- ----------------------------------------------------------------- -/

/-- Failure modes of the readers.  `missingColumn` is the xyt header assert,
`missingRequiredField` the rapidSTORM header asserts, `nameError` the use of
the unbound local `localBackground`, `valueError` a Python `int(nan)` call,
`indexError` a malformed numpy fancy index. -/
inductive RLError where
  | missingColumn
  | missingRequiredField
  | nameError
  | valueError
  | indexError
deriving DecidableEq, Repr

/-- State of the `indexGenerator` class of `readLocalisations.py`:
`currentFrame`/`previousFrame` start at `0` and `idx` starts at `-1`. -/
structure indexGenerator where
  currentFrame : Val
  previousFrame : Val
  idx : Int
deriving DecidableEq, Repr

/-- The freshly constructed `indexGenerator()`. -/
def indexGenerator.start : indexGenerator := ⟨.num 0, .num 0, -1⟩

/-- `indexGenerator.__call__(frame)`: increments and returns `idx` while
`frame` equals `currentFrame`, otherwise records the new frame and restarts
the counter at `0`. -/
def indexGenerator.call (s : indexGenerator) (frame : Val) : Int × indexGenerator :=
  if veq frame s.currentFrame then
    (s.idx + 1, ⟨s.currentFrame, s.previousFrame, s.idx + 1⟩)
  else
    (0, ⟨frame, s.currentFrame, 0⟩)

/-- The list comprehension `[ idx(frame) for frame in ... ]` threading the
mutable `indexGenerator` through the frame column. -/
def idxScan (s : indexGenerator) : List Val → List Int
  | [] => []
  | f :: fs =>
    let r := indexGenerator.call s f
    r.1 :: idxScan r.2 fs

/-- The level-1 label `'frame_' + str(int(frame))`; Python `int(...)` raises
`ValueError` on a non-finite float. -/
def frameLabel : Val → Except RLError String
  | .num q => .ok ("frame_" ++ toString (truncQ q))
  | .nan => .error .valueError

/-- `generateIndex(allData, imageNumber)` applied to the already-extracted
frame column: the two-level index (labels, intra-frame counters). -/
def generateIndex (frames : List Val) : Except RLError (List String × List Int) :=
  match frames.mapM frameLabel with
  | .error e => .error e
  | .ok level1 => .ok (level1, idxScan indexGenerator.start frames)

/-- The column indices recognised while scanning the rapidSTORM XML header
children; a field is `none` when its identifier never occurred.
`localBackground = none` models the Python local variable never being bound
(it has no `None` initialisation in the source, unlike the other nine). -/
structure RSHeader where
  xPosition : Option Nat
  xPositionUncertainty : Option Nat
  yPosition : Option Nat
  yPositionUncertainty : Option Nat
  amplitude : Option Nat
  imageNumber : Option Nat
  PSFpositionX : Option Nat
  PSFpositionY : Option Nat
  fitResidues : Option Nat
  localBackground : Option Nat
deriving DecidableEq, Repr

/-- All fields unassigned, the state before the header scan. -/
def RSHeader.empty : RSHeader :=
  ⟨none, none, none, none, none, none, none, none, none, none⟩

/-- One step of the `elif` chain over an enumerated header child
`(index, identifier)`. -/
def rsHeaderStep (h : RSHeader) (p : Nat × String) : RSHeader :=
  if p.2 = "Position-0-0" then { h with xPosition := some p.1 }
  else if p.2 = "Position-0-0-uncertainty" then { h with xPositionUncertainty := some p.1 }
  else if p.2 = "Position-1-0" then { h with yPosition := some p.1 }
  else if p.2 = "Position-1-0-uncertainty" then { h with yPositionUncertainty := some p.1 }
  else if p.2 = "Amplitude-0-0" then { h with amplitude := some p.1 }
  else if p.2 = "ImageNumber-0-0" then { h with imageNumber := some p.1 }
  else if p.2 = "PSFWidth-0-0" then { h with PSFpositionX := some p.1 }
  else if p.2 = "PSFWidth-1-0" then { h with PSFpositionY := some p.1 }
  else if p.2 = "FitResidues-0-0" then { h with fitResidues := some p.1 }
  else if p.2 = "LocalBackground-0-0" then { h with localBackground := some p.1 }
  else h

/-- The `for index, child in enumerate(root)` scan over the identifiers of
the XML header children. -/
def parseRSHeader (idents : List String) : RSHeader :=
  idents.enum.foldl rsHeaderStep RSHeader.empty

/-- Append the SNR cell `amplitude / localBackground` to a row
(`np.concatenate((allData, SNR), axis=1)`, computed row-wise). -/
def snrStep (ai li : Nat) (r : List Val) : List Val :=
  r ++ [vdiv (r.getD ai .nan) (r.getD li .nan)]

/-- Append the column created as `zeros = np.zeros(...); zeros.fill(np.NaN)`:
despite its name it holds NaN in every row. -/
def nanColStep (r : List Val) : List Val :=
  r ++ [Val.nan]

/-- `allData[:, amplitude] /= photonConversion`, row-wise. -/
def photonStep (ai : Nat) (pc : ℚ) (r : List Val) : List Val :=
  r.set ai (vdiv (r.getD ai .nan) (.num pc))

/-- `allData[:, [xPosition, yPosition]] /= pixelSize`, row-wise; both cells
are divided, each computed from the original row. -/
def pixelStep (xi yi : Nat) (ps : ℚ) (r : List Val) : List Val :=
  (r.set xi (vdiv (r.getD xi .nan) (.num ps))).set yi (vdiv (r.getD yi .nan) (.num ps))

/-- One row of the DataFrame returned by `readRapidStormLocalisations`, with
columns `['x','y','Uncertainty x','Uncertainty y','Photon Count','frame',
'FitResidue','SNR']`. -/
structure RSRow where
  x : Val
  y : Val
  uncertaintyX : Val
  uncertaintyY : Val
  photonCount : Val
  frame : Val
  fitResidue : Val
  snr : Val
deriving DecidableEq, Repr

/-- `allData[:, dataIndexes]` restricted to one row: select the eight output
cells by column index. -/
def rsSelect (xi yi xU yU ai ii fr si : Nat) (r : List Val) : RSRow :=
  ⟨r.getD xi .nan, r.getD yi .nan, r.getD xU .nan, r.getD yU .nan,
   r.getD ai .nan, r.getD ii .nan, r.getD fr .nan, r.getD si .nan⟩

/-- Resolution of the optional uncertainty pair: when `Position-0-0-uncertainty`
was not declared BOTH indices are replaced by `-1` (the last column, i.e. the
NaN-filled one, at offset `w + 1` after the two appends).  The source only
tests `xPositionUncertainty is None`; if the x uncertainty is declared but
the y uncertainty is not, `dataIndexes` keeps a Python `None` and the numpy
fancy indexing fails, modelled by `indexError`. -/
def rsResolveUncertainty : Option Nat → Option Nat → Nat → Except RLError (Nat × Nat)
  | some i, some j, _ => .ok (i, j)
  | some _, none, _ => .error .indexError
  | none, _, w => .ok (w + 1, w + 1)

/-- `readRapidStormLocalisations(fname, photonConversion, pixelSize)` after
the file has been split into the XML header identifiers (in declaration
order) and the whitespace-delimited numeric body rows.  The source also
resolves `PSFpositionX`/`PSFpositionY` to `-1` when absent, but those two
indices never enter `dataIndexes` and have no observable effect, so they are
not re-modelled here. -/
def readRapidStormLocalisations (idents : List String) (body : List (List Val))
    (photonConversion pixelSize : ℚ) : Except RLError (List RSRow) :=
  match (parseRSHeader idents).xPosition, (parseRSHeader idents).yPosition,
        (parseRSHeader idents).amplitude, (parseRSHeader idents).imageNumber with
  | some xPosition, some yPosition, some amplitude, some imageNumber =>
    match (parseRSHeader idents).localBackground with
    | none => .error .nameError
    | some localBackground =>
      let w := (body.headD []).length
      let d1 := body.map (snrStep amplitude localBackground)
      let SNRindex := w
      let d2 := d1.map nanColStep
      let d3 := d2.map (photonStep amplitude photonConversion)
      let d4 := d3.map (pixelStep xPosition yPosition pixelSize)
      match rsResolveUncertainty (parseRSHeader idents).xPositionUncertainty
              (parseRSHeader idents).yPositionUncertainty w with
      | .error e => .error e
      | .ok (xU, yU) =>
        let fitResidues := ((parseRSHeader idents).fitResidues).getD (w + 1)
        match generateIndex (d4.map (fun r => r.getD imageNumber .nan)) with
        | .error e => .error e
        | .ok _ =>
          .ok (d4.map (rsSelect xPosition yPosition xU yU amplitude imageNumber
                         fitResidues SNRindex))
  | _, _, _, _ => .error .missingRequiredField

/-- `readXYTLocalisations(fname, pixelSize)` after the file has been split
into the tab-separated header names and the numeric body rows.
`argsortPerm` stands for the index permutation returned by
`allData[:, frameIndex].argsort()`: numpy's default (quicksort) argsort,
which returns SOME permutation making the frame column ascending but gives
no guarantee on the relative order of equal frame values.  The x and y
columns are divided by `pixelSize` after sorting and indexing. -/
def readXYTLocalisations (header : List String) (body : List (List Val))
    (argsortPerm : List Nat) (pixelSize : ℚ) : Except RLError (List (List Val)) :=
  if ("x" ∈ header ∧ "y" ∈ header ∧ "frame" ∈ header) then
    let frameIndex := header.findIdx (· == "frame")
    let sortedData := argsortPerm.map (fun i => body.getD i [])
    match generateIndex (sortedData.map (fun r => r.getD frameIndex .nan)) with
    | .error e => .error e
    | .ok _ =>
      let xIdx := header.findIdx (· == "x")
      let yIdx := header.findIdx (· == "y")
      .ok (sortedData.map (pixelStep xIdx yIdx pixelSize))
  else .error .missingColumn

/- ----------------------------------------------------------------- -/
/- createMovieInfo.py                                                -/
/- ----------------------------------------------------------------- -/

/-- The failure of `convert`: `list.index` raises `ValueError` when `x`, `y`
or `frame` is not among the DataFrame columns. -/
inductive ConvertError where
  | missingColumn
deriving DecidableEq, Repr

/-- The 6-tuple appended per localisation by `convert`:
`(x, xUncertainty, y, yUncertainty, amplitude, placeholder 0)`. -/
structure Tup6 where
  x : Val
  ux : Val
  y : Val
  uy : Val
  amp : Val
  zero : Val
deriving DecidableEq, Repr

/-- `newData.setdefault(T, list()).append(tup)`: append `tup` to the bucket
of the (first) key equal to `k`, creating the bucket at the end when no key
matches.  Like a Python float-keyed dict, a NaN key never matches. -/
def setdefaultAppend (m : List (Val × List Tup6)) (k : Val) (t : Tup6) :
    List (Val × List Tup6) :=
  match m with
  | [] => [(k, [t])]
  | (k', v) :: rest =>
    if veq k' k then (k', v ++ [t]) :: rest
    else (k', v) :: setdefaultAppend rest k t

/-- The index pair of the thunderstorm-specific columns: the source looks up
`'uncertainty'` and then `'intensity [photon]'` inside one `try`, so a
failure of either lookup leaves BOTH indices `None`. -/
def uncAmpIdx (columns : List String) : Option (Nat × Nat) :=
  match columns.findIdx? (· == "uncertainty") with
  | none => none
  | some iU =>
    match columns.findIdx? (· == "intensity [photon]") with
    | none => none
    | some iA => some (iU, iA)

/-- The x uncertainty entering the emitted tuple: the `'uncertainty'` cell
for thunderstorm rows, the placeholder `0` otherwise. -/
def rowXU (iUA : Option (Nat × Nat)) (r : List Val) : Val :=
  match iUA with
  | none => .num 0
  | some (iU, _) => r.getD iU .nan

/-- The y uncertainty entering the emitted tuple: the same `'uncertainty'`
cell for thunderstorm rows, the placeholder `0` otherwise. -/
def rowYU (iUA : Option (Nat × Nat)) (r : List Val) : Val :=
  match iUA with
  | none => .num 0
  | some (iU, _) => r.getD iU .nan

/-- The amplitude entering the emitted tuple: the `'intensity [photon]'`
cell for thunderstorm rows, the placeholder `1` otherwise. -/
def rowAmp (iUA : Option (Nat × Nat)) (r : List Val) : Val :=
  match iUA with
  | none => .num 1
  | some (_, iA) => r.getD iA .nan

/-- The body of `convert`'s row loop: append the emission tuple to the
bucket keyed by the row's frame cell. -/
def convStep (iX iY iT : Nat) (iUA : Option (Nat × Nat))
    (m : List (Val × List Tup6)) (r : List Val) : List (Val × List Tup6) :=
  match iUA with
  | none =>
    setdefaultAppend m (r.getD iT .nan)
      ⟨r.getD iX .nan, .num 0, r.getD iY .nan, .num 0, .num 1, .num 0⟩
  | some (iU, iA) =>
    setdefaultAppend m (r.getD iT .nan)
      ⟨r.getD iX .nan, r.getD iU .nan, r.getD iY .nan, r.getD iU .nan,
       r.getD iA .nan, .num 0⟩

/-- `convert(dataFrame)`: look up the `x`/`y`/`frame` column indices, then a
single pass over the rows filling the frame-keyed dict.  (The source reads
the module-level `pos` for the column lookups and the row count, but `pos`
aliases `dataFrame` at the only call site, so one input suffices.) -/
def convert (columns : List String) (rows : List (List Val)) :
    Except ConvertError (List (Val × List Tup6)) :=
  match columns.findIdx? (· == "x"), columns.findIdx? (· == "y"),
        columns.findIdx? (· == "frame") with
  | some iX, some iY, some iT =>
    .ok (rows.foldl (convStep iX iY iT (uncAmpIdx columns)) [])
  | _, _, _ => .error .missingColumn

/-- Content of one field of one `movieInfo` slot.  `scalarZero` is the `0`
each object field holds right after the `np.zeros` allocation, `pairsArr l`
an array of `(value, uncertainty)` pairs, `emptyFloat` the explicit
`np.array([], dtype=np.float64)` written for frames without localisations. -/
inductive Cell where
  | scalarZero
  | pairsArr (l : List (Val × Val))
  | emptyFloat
deriving DecidableEq, Repr

/-- One slot of the `movieInfo` structured array, fields
`xCoord` / `yCoord` / `amp`. -/
structure Entry where
  xCoord : Cell
  yCoord : Cell
  amp : Cell
deriving DecidableEq, Repr

/-- A slot as allocated by `np.zeros`: every field still the scalar `0`. -/
def initialEntry : Entry := ⟨.scalarZero, .scalarZero, .scalarZero⟩

/-- A slot for a frame with no localisations: three explicitly empty float64
arrays. -/
def emptyEntry : Entry := ⟨.emptyFloat, .emptyFloat, .emptyFloat⟩

/-- Failures of `createUtrackMatlabLocalisationFile`: `emptyInput` is the
`ValueError` raised by `np.max` over the empty key list, `badFrame` any
failure to turn a frame key into a valid array index (non-finite or
non-integral or out-of-range frame, negative allocation size). -/
inductive MIErr where
  | emptyInput
  | badFrame
deriving DecidableEq, Repr

/-- `np.max(posList.keys())`: raises on an empty sequence, propagates NaN. -/
def npMax : List Val → Except MIErr Val
  | [] => .error .emptyInput
  | k :: ks => .ok (ks.foldl vmax k)

/-- `np.int(np.max(...)) + 1`: Python `int` truncates a finite float toward
zero and raises `ValueError` on NaN. -/
def toMatrixSize : Val → Except MIErr Int
  | .num q => .ok (truncQ q + 1)
  | .nan => .error .badFrame

/-- Use a frame key as an index into the length-`m` data array: only a
finite, integral, in-range key denotes a slot. -/
def frameToIdx (k : Val) (m : Nat) : Except MIErr Nat :=
  match k with
  | .num q =>
    if q.den = 1 ∧ 0 ≤ q.num ∧ q.num < (m : Int) then .ok q.num.toNat
    else .error .badFrame
  | .nan => .error .badFrame

/-- Split a bucket's tuple list into the three parallel pair sequences
`xCoord` = `(x, ux)`, `yCoord` = `(y, uy)`, `amp` = `(amp, zero)`. -/
def entryOf (tups : List Tup6) : Entry :=
  ⟨.pairsArr (tups.map fun t => (t.x, t.ux)),
   .pairsArr (tups.map fun t => (t.y, t.uy)),
   .pairsArr (tups.map fun t => (t.amp, t.zero))⟩

/-- The first loop of `createUtrackMatlabLocalisationFile`: write the split
pair arrays into the slot of every frame present in the dict. -/
def fill1 (d : List Entry) : List (Val × List Tup6) → Except MIErr (List Entry)
  | [] => .ok d
  | kt :: rest =>
    match frameToIdx kt.1 d.length with
    | .error e => .error e
    | .ok i => fill1 (d.set i (entryOf kt.2)) rest

/-- One step of the second loop: an index present among the keys is skipped
(`continue`), any other slot is overwritten with the three empty float64
arrays. -/
def fill2Step (keys : List Val) (d : List Entry) (i : Nat) : List Entry :=
  if keys.any (fun k => veq (.num (i : ℚ)) k) then d else d.set i emptyEntry

/-- The second loop `for index in range(matrixSize)` of
`createUtrackMatlabLocalisationFile`. -/
def fill2 (keys : List Val) (d : List Entry) : List Entry :=
  (List.range d.length).foldl (fill2Step keys) d

/-- `createUtrackMatlabLocalisationFile(posList)`: allocate
`int(max(keys)) + 1` slots, fill the observed frames, then overwrite every
remaining slot with explicitly empty float arrays.  An error means the
Python run raised before `outMat` was built: no output is produced. -/
def createUtrackMatlabLocalisationFile (posList : List (Val × List Tup6)) :
    Except MIErr (List Entry) :=
  match npMax (posList.map Prod.fst) with
  | .error e => .error e
  | .ok mv =>
    match toMatrixSize mv with
    | .error e => .error e
    | .ok ms =>
      if 0 ≤ ms then
        match fill1 (List.replicate ms.toNat initialEntry) posList with
        | .error e => .error e
        | .ok d1 => .ok (fill2 (posList.map Prod.fst) d1)
      else .error .badFrame

/- ----------------------------------------------------------------- -/
/- Helper lemmas                                                     -/
/- ----------------------------------------------------------------- -/

/-- Two values related by the float equality test are the same value. -/
theorem veq_eq_of_true {u v : Val} (h : veq u v = true) : u = v := by
  cases u <;> cases v <;> simp [veq] at h ⊢
  exact h

/-- The float equality test never holds against a non-finite value. -/
theorem veq_nan_right (u : Val) : veq u .nan = false := by
  cases u <;> rfl

/-- Reading below the length of the left part of an append. -/
theorem getD_append_lt {α : Type} (l l' : List α) (n : Nat) (d : α)
    (h : n < l.length) : (l ++ l').getD n d = l.getD n d := by
  simp [List.getD_eq_getElem?_getD, List.getElem?_append, h]

/-- Reading the single appended element at the old length. -/
theorem getD_append_len {α : Type} (l : List α) (a d : α) :
    (l ++ [a]).getD l.length d = a := by
  simp [List.getD_eq_getElem?_getD, List.getElem?_append_right (Nat.le_refl _)]

/-- Writing one position leaves the others unchanged. -/
theorem getD_set_ne {α : Type} (l : List α) (i j : Nat) (v d : α) (h : i ≠ j) :
    (l.set i v).getD j d = l.getD j d := by
  simp [List.getD_eq_getElem?_getD, List.getElem?_set_ne h]

/-- Reading back an in-range write. -/
theorem getD_set_self {α : Type} (l : List α) (i : Nat) (v d : α)
    (h : i < l.length) : (l.set i v).getD i d = v := by
  simp [List.getD_eq_getElem?_getD, List.getElem?_set_self h]

/-- An in-range `getD` is a membership. -/
theorem getD_mem {α : Type} (l : List α) (n : Nat) (d : α) (h : n < l.length) :
    l.getD n d ∈ l := by
  simp [List.getD_eq_getElem?_getD, List.getElem?_eq_getElem h]

/-- `getElem?` of an in-range position is the `getD` value. -/
theorem getElem?_eq_some_getD {α : Type} (l : List α) (n : Nat) (d : α)
    (h : n < l.length) : l[n]? = some (l.getD n d) := by
  simp [List.getD_eq_getElem?_getD, List.getElem?_eq_getElem h]

/-- Behaviour of the index generator started in a state whose current frame
is the finite value `c` and whose counter is `n`, over a column of finite
frame values: the output has one counter per frame, the first counter
continues `n` exactly when the first frame equals `c`, and each later
counter increments on a repeated frame and restarts on a changed one. -/
theorem idxScan_spec (qs : List ℚ) : ∀ (c : ℚ) (p : Val) (n : Int),
    (idxScan ⟨.num c, p, n⟩ (qs.map Val.num)).length = qs.length ∧
    (0 < qs.length →
      (idxScan ⟨.num c, p, n⟩ (qs.map Val.num)).getD 0 0 =
        if qs.getD 0 0 = c then n + 1 else 0) ∧
    (∀ i, i + 1 < qs.length →
      (idxScan ⟨.num c, p, n⟩ (qs.map Val.num)).getD (i + 1) 0 =
        if qs.getD (i + 1) 0 = qs.getD i 0 then
          (idxScan ⟨.num c, p, n⟩ (qs.map Val.num)).getD i 0 + 1
        else 0) := by
  induction qs with
  | nil => intro c p n; simp [idxScan]
  | cons q qs ih =>
    intro c p n
    have hout : idxScan ⟨.num c, p, n⟩ ((q :: qs).map Val.num) =
        (if q = c then n + 1 else 0) ::
          idxScan ⟨.num q, if q = c then p else .num c, if q = c then n + 1 else 0⟩
            (qs.map Val.num) := by
      by_cases hqc : q = c
      · subst hqc
        simp [idxScan, indexGenerator.call, veq]
      · simp [idxScan, indexGenerator.call, veq, hqc]
    obtain ⟨ihlen, ihhead, ihstep⟩ :=
      ih q (if q = c then p else .num c) (if q = c then n + 1 else 0)
    refine ⟨?_, ?_, ?_⟩
    · rw [hout]
      simp [ihlen]
    · intro _
      rw [hout]
      simp
    · intro i hi
      cases i with
      | zero =>
        have h0 : 0 < qs.length := by
          simpa using hi
        rw [hout]
        simp only [List.getD_cons_succ, List.getD_cons_zero]
        rw [ihhead h0]
      | succ j =>
        have hj : j + 1 < qs.length := by
          simpa using hi
        rw [hout]
        simp only [List.getD_cons_succ]
        rw [ihstep j hj]

/-- Every counter the generator emits from a state with counter at least
`-1` is non-negative. -/
theorem idxScan_nonneg (fs : List Val) : ∀ s : indexGenerator, -1 ≤ s.idx →
    ∀ v ∈ idxScan s fs, 0 ≤ v := by
  induction fs with
  | nil =>
    intro s _ v hv
    simp [idxScan] at hv
  | cons f fs ih =>
    intro s hs v hv
    simp only [idxScan, List.mem_cons] at hv
    rcases hv with hv | hv
    · subst hv
      unfold indexGenerator.call
      split <;> simp <;> omega
    · refine ih (indexGenerator.call s f).2 ?_ v hv
      unfold indexGenerator.call
      split <;> simp <;> omega

/-- Claim C8: for every non-decreasing sequence of (finite) frame values,
the index generator emits one zero-based counter per element; the first
element receives `0`, each later element's counter is the previous counter
plus one when its frame equals the immediately previous frame and `0` when
it differs, and every emitted counter is non-negative. -/
theorem indexGenerator_counter_spec (qs : List ℚ)
    (hmono : qs.Chain' (· ≤ ·)) :
    (idxScan indexGenerator.start (qs.map Val.num)).length = qs.length ∧
    (0 < qs.length → (idxScan indexGenerator.start (qs.map Val.num)).getD 0 0 = 0) ∧
    (∀ i, i + 1 < qs.length →
      (idxScan indexGenerator.start (qs.map Val.num)).getD (i + 1) 0 =
        if qs.getD (i + 1) 0 = qs.getD i 0 then
          (idxScan indexGenerator.start (qs.map Val.num)).getD i 0 + 1
        else 0) ∧
    (∀ v ∈ idxScan indexGenerator.start (qs.map Val.num), 0 ≤ v) := by
  obtain ⟨hlen, hhead, hstep⟩ := idxScan_spec qs 0 (.num 0) (-1)
  refine ⟨hlen, ?_, hstep, idxScan_nonneg _ _ (by norm_num [indexGenerator.start])⟩
  intro h0
  have hs : indexGenerator.start = ⟨.num 0, .num 0, -1⟩ := rfl
  rw [hs, hhead h0]
  split <;> norm_num

/-- Concrete run discharging the hypothesis of `indexGenerator_counter_spec`:
the column `[0, 0, 2]` is non-decreasing, and the counter of its second
element continues the first element's counter because the frame repeats. -/
theorem indexGenerator_counter_spec_witness :
    List.Chain' (· ≤ ·) [(0 : ℚ), 0, 2] ∧
    (idxScan indexGenerator.start ([(0 : ℚ), 0, 2].map Val.num)).getD (0 + 1) 0 =
      (if [(0 : ℚ), 0, 2].getD (0 + 1) 0 = [(0 : ℚ), 0, 2].getD 0 0 then
        (idxScan indexGenerator.start ([(0 : ℚ), 0, 2].map Val.num)).getD 0 0 + 1
      else 0) :=
  ⟨by norm_num [List.chain'_cons],
   (indexGenerator_counter_spec [0, 0, 2] (by norm_num [List.chain'_cons])).2.2.1 0
     (by norm_num)⟩

/-- Claim C4: on an empty frame-to-localisations map,
`createUtrackMatlabLocalisationFile` fails with the empty-input error (the
`np.max` of the empty key sequence), surfaced to the caller through the
`Except` result, and no movieInfo output is produced. -/
theorem movieInfo_empty_input_error :
    createUtrackMatlabLocalisationFile [] = .error .emptyInput := rfl

/-- Claim C5 (refutation witness): on a rapidSTORM header that declares only
the four required fields plus the local background, the synthesized
`Uncertainty x` column of the output holds NaN in every row — the
NaN-filled extra column selected by index `-1` — and NaN is not the zero
the spec promises. -/
theorem rapidStorm_missing_uncertainty_is_nan_not_zero :
    (readRapidStormLocalisations
        ["Position-0-0", "Position-1-0", "Amplitude-0-0", "ImageNumber-0-0",
         "LocalBackground-0-0"]
        [[.num 100, .num 200, .num 10, .num 0, .num 2],
         [.num 50, .num 60, .num 8, .num 1, .num 4]] 1 1).toOption.map
      (List.map RSRow.uncertaintyX) = some [Val.nan, Val.nan] ∧
    Val.nan ≠ Val.num 0 := by
  exact ⟨by rfl, by decide⟩

/-- A header scan that never saw `LocalBackground-0-0` leaves
`localBackground` unbound. -/
theorem parseRSHeader_localBackground_none (idents : List String)
    (h : "LocalBackground-0-0" ∉ idents) :
    (parseRSHeader idents).localBackground = none := by
  have step : ∀ (h0 : RSHeader) (p : Nat × String), p.2 ≠ "LocalBackground-0-0" →
      (rsHeaderStep h0 p).localBackground = h0.localBackground := by
    intro h0 p hne
    simp only [rsHeaderStep]
    split_ifs <;> rfl
  have main : ∀ (ps : List (Nat × String)) (h0 : RSHeader),
      (∀ p ∈ ps, p.2 ≠ "LocalBackground-0-0") →
      (ps.foldl rsHeaderStep h0).localBackground = h0.localBackground := by
    intro ps
    induction ps with
    | nil => intro h0 _; rfl
    | cons p ps ih =>
      intro h0 hall
      rw [List.foldl_cons, ih _ (fun q hq => hall q (List.mem_cons_of_mem p hq)),
        step h0 p (hall p (List.mem_cons_self p ps))]
  refine main idents.enum RSHeader.empty ?_
  intro p hp hcontra
  obtain ⟨-, hlt, hx⟩ := List.mem_enumFrom (by simpa [List.enum] using hp)
  apply h
  have hx' : idents[p.1 - 0] = "LocalBackground-0-0" := by rw [← hx, hcontra]
  rw [← hx']
  exact List.getElem_mem _

/-- Claim C9: the rapidSTORM reader fails on every input whose XML header
does not declare `LocalBackground-0-0`, whatever the body and conversion
factors: either a required-field assertion fires first, or the SNR
computation uses the never-bound local `localBackground` and raises. -/
theorem rapidStorm_fails_without_localBackground (idents : List String)
    (body : List (List Val)) (pc ps : ℚ)
    (h : "LocalBackground-0-0" ∉ idents) :
    (readRapidStormLocalisations idents body pc ps).toOption = none := by
  have hlb := parseRSHeader_localBackground_none idents h
  unfold readRapidStormLocalisations
  cases hx : (parseRSHeader idents).xPosition <;>
    cases hy : (parseRSHeader idents).yPosition <;>
      cases ha : (parseRSHeader idents).amplitude <;>
        cases hi : (parseRSHeader idents).imageNumber <;>
          simp [hlb, Except.toOption]

/-- Concrete run discharging the hypothesis of
`rapidStorm_fails_without_localBackground`: a header declaring exactly the
four required fields (so every required assert passes) still fails. -/
theorem rapidStorm_fails_without_localBackground_witness :
    ("LocalBackground-0-0" ∉
      ["Position-0-0", "Position-1-0", "Amplitude-0-0", "ImageNumber-0-0"]) ∧
    (readRapidStormLocalisations
        ["Position-0-0", "Position-1-0", "Amplitude-0-0", "ImageNumber-0-0"]
        [[.num 1, .num 2, .num 3, .num 0], [.num 4, .num 5, .num 6, .num 1]]
        1 1).toOption = none :=
  ⟨by decide, rapidStorm_fails_without_localBackground _ _ _ _ (by decide)⟩

/-- The float equality test holds exactly between two finite values of the
same magnitude. -/
theorem veq_true_iff (u v : Val) : veq u v = true ↔ ∃ q, u = .num q ∧ v = .num q := by
  cases u <;> cases v <;> simp [veq]
  exact eq_comm

/-- A finite value equals itself under the float test. -/
theorem veq_num_self (q : ℚ) : veq (.num q) (.num q) = true := by
  simp [veq]

/-- Python `newData[T]`: the bucket stored under the first key equal to `f`,
empty when no key matches. -/
def lookupBucket : List (Val × List Tup6) → Val → List Tup6
  | [], _ => []
  | (k, v) :: rest, f => if veq k f then v else lookupBucket rest f

/-- After a `setdefault(...).append(t)` under key `k`, the bucket of `k`
grows by exactly `[t]` at the end and every other bucket is unchanged. -/
theorem lookupBucket_setdefaultAppend (m : List (Val × List Tup6)) (k : Val)
    (t : Tup6) (f : Val) :
    lookupBucket (setdefaultAppend m k t) f =
      lookupBucket m f ++ (if veq k f then [t] else []) := by
  induction m with
  | nil =>
    by_cases h : veq k f <;> simp [setdefaultAppend, lookupBucket, h]
  | cons kv rest ih =>
    obtain ⟨k', v⟩ := kv
    by_cases h1 : veq k' k
    · obtain ⟨q, rfl, rfl⟩ := (veq_true_iff k' k).mp h1
      by_cases h2 : veq (Val.num q) f <;>
        simp [setdefaultAppend, lookupBucket, veq_num_self, h2]
    · by_cases h2 : veq k' f
      · obtain ⟨q, rfl, rfl⟩ := (veq_true_iff k' f).mp h2
        have h3 : veq k (Val.num q) = false := by
          cases hk : veq k (Val.num q)
          · rfl
          · obtain ⟨q', hk1, hk2⟩ := (veq_true_iff _ _).mp hk
            rw [hk1] at h1
            obtain rfl : q = q' := by
              simpa [Val.num.injEq] using hk2
            exact absurd (veq_num_self q) (by simp [h1])
        simp [setdefaultAppend, lookupBucket, h1, h2, h3]
      · simp [setdefaultAppend, lookupBucket, h1, h2, ih]

/-- One pass of `convert`'s row loop over any starting dict: the bucket of a
key collects, in input row order, exactly the emission tuples of the rows
whose frame cell equals that key. -/
theorem lookupBucket_convFold (iX iY iT : Nat) (iUA : Option (Nat × Nat))
    (f : Val) :
    ∀ (rows : List (List Val)) (m : List (Val × List Tup6)),
      lookupBucket (rows.foldl (convStep iX iY iT iUA) m) f =
        lookupBucket m f ++
          (rows.filter (fun r => veq (r.getD iT .nan) f)).map
            (fun r => Tup6.mk (r.getD iX .nan) (rowXU iUA r) (r.getD iY .nan)
              (rowYU iUA r) (rowAmp iUA r) (.num 0)) := by
  intro rows
  induction rows with
  | nil => intro m; simp
  | cons r rows ih =>
    intro m
    rw [List.foldl_cons, ih]
    have hstep : convStep iX iY iT iUA m r =
        setdefaultAppend m (r.getD iT .nan)
          (Tup6.mk (r.getD iX .nan) (rowXU iUA r) (r.getD iY .nan)
            (rowYU iUA r) (rowAmp iUA r) (.num 0)) := by
      cases iUA with
      | none => rfl
      | some p => obtain ⟨iU, iA⟩ := p; rfl
    rw [hstep, lookupBucket_setdefaultAppend]
    by_cases hf : veq (r.getD iT .nan) f
    · simp only [List.getD_eq_getElem?_getD] at hf
      simp [List.filter_cons, hf]
    · simp only [List.getD_eq_getElem?_getD] at hf
      simp [List.filter_cons, hf]

/-- Claim C1: for every row of the normalized table, `convert` appends
exactly the tuple `(x, xUncertainty, y, yUncertainty, amplitude, 0)` to the
bucket keyed by that row's frame cell, and the resulting order inside every
frame's bucket is the input row order (the bucket equals the in-order
filter of the rows with that frame). -/
theorem convert_buckets_rows_in_order (columns : List String)
    (rows : List (List Val)) (m : List (Val × List Tup6)) (iX iY iT : Nat)
    (hx : columns.findIdx? (· == "x") = some iX)
    (hy : columns.findIdx? (· == "y") = some iY)
    (ht : columns.findIdx? (· == "frame") = some iT)
    (hm : convert columns rows = .ok m) :
    ∀ f : Val, lookupBucket m f =
      (rows.filter (fun r => veq (r.getD iT .nan) f)).map
        (fun r => Tup6.mk (r.getD iX .nan) (rowXU (uncAmpIdx columns) r)
          (r.getD iY .nan) (rowYU (uncAmpIdx columns) r)
          (rowAmp (uncAmpIdx columns) r) (.num 0)) := by
  intro f
  simp only [convert, hx, hy, ht, Except.ok.injEq] at hm
  subst hm
  simpa [lookupBucket] using
    lookupBucket_convFold iX iY iT (uncAmpIdx columns) f rows []

/-- Concrete run discharging the hypotheses of
`convert_buckets_rows_in_order`: a three-row xyt-style table with two rows
in frame 0 and one in frame 7; the bucket of frame 0 holds the two frame-0
emission tuples in row order. -/
theorem convert_buckets_rows_in_order_witness :
    (["x", "y", "frame"].findIdx? (· == "x") = some 0 ∧
     ["x", "y", "frame"].findIdx? (· == "y") = some 1 ∧
     ["x", "y", "frame"].findIdx? (· == "frame") = some 2 ∧
     convert ["x", "y", "frame"]
       [[.num 1, .num 2, .num 0], [.num 3, .num 4, .num 0],
        [.num 5, .num 6, .num 7]] =
       .ok [(.num 0, [⟨.num 1, .num 0, .num 2, .num 0, .num 1, .num 0⟩,
                      ⟨.num 3, .num 0, .num 4, .num 0, .num 1, .num 0⟩]),
            (.num 7, [⟨.num 5, .num 0, .num 6, .num 0, .num 1, .num 0⟩])]) ∧
    lookupBucket
      [(.num 0, [⟨.num 1, .num 0, .num 2, .num 0, .num 1, .num 0⟩,
                 ⟨.num 3, .num 0, .num 4, .num 0, .num 1, .num 0⟩]),
       (.num 7, [⟨.num 5, .num 0, .num 6, .num 0, .num 1, .num 0⟩])] (.num 0) =
      ([[.num 1, .num 2, .num 0], [.num 3, .num 4, .num 0],
        [.num 5, .num 6, .num 7]].filter
          (fun r => veq (r.getD 2 .nan) (.num 0))).map
        (fun r => Tup6.mk (r.getD 0 .nan) (rowXU (uncAmpIdx ["x", "y", "frame"]) r)
          (r.getD 1 .nan) (rowYU (uncAmpIdx ["x", "y", "frame"]) r)
          (rowAmp (uncAmpIdx ["x", "y", "frame"]) r) (.num 0)) :=
  ⟨⟨rfl, rfl, rfl, rfl⟩,
   convert_buckets_rows_in_order ["x", "y", "frame"]
     [[.num 1, .num 2, .num 0], [.num 3, .num 4, .num 0],
      [.num 5, .num 6, .num 7]]
     [(.num 0, [⟨.num 1, .num 0, .num 2, .num 0, .num 1, .num 0⟩,
                ⟨.num 3, .num 0, .num 4, .num 0, .num 1, .num 0⟩]),
      (.num 7, [⟨.num 5, .num 0, .num 6, .num 0, .num 1, .num 0⟩])]
     0 1 2 rfl rfl rfl rfl (.num 0)⟩

/-- One step of the second loop never changes the array length. -/
theorem fill2Step_length (keys : List Val) (d : List Entry) (i : Nat) :
    (fill2Step keys d i).length = d.length := by
  unfold fill2Step
  split <;> simp

/-- Decomposition of a successful `createUtrackMatlabLocalisationFile` run
into its stages. -/
theorem createU_ok_shape (posList : List (Val × List Tup6)) (data : List Entry)
    (hok : createUtrackMatlabLocalisationFile posList = .ok data) :
    ∃ mv ms d1, npMax (posList.map Prod.fst) = .ok mv ∧
      toMatrixSize mv = .ok ms ∧ 0 ≤ ms ∧
      fill1 (List.replicate ms.toNat initialEntry) posList = .ok d1 ∧
      data = fill2 (posList.map Prod.fst) d1 := by
  unfold createUtrackMatlabLocalisationFile at hok
  split at hok
  · cases hok
  · split at hok
    · cases hok
    · split at hok
      · split at hok
        · cases hok
        · injection hok with h
          exact ⟨_, _, _, by assumption, by assumption, by assumption,
            by assumption, h.symm⟩
      · cases hok

/-- The whole second loop never changes the array length. -/
theorem fill2_fold_length (keys : List Val) :
    ∀ (l : List Nat) (d : List Entry),
      (l.foldl (fill2Step keys) d).length = d.length := by
  intro l
  induction l with
  | nil => intro d; rfl
  | cons i l ih =>
    intro d
    rw [List.foldl_cons, ih, fill2Step_length]

/-- Positions whose index the second loop never visits are untouched. -/
theorem fill2_fold_getElem?_not_mem (keys : List Val) :
    ∀ (l : List Nat) (d : List Entry) (n : Nat), n ∉ l →
      (l.foldl (fill2Step keys) d)[n]? = d[n]? := by
  intro l
  induction l with
  | nil => intro d n _; rfl
  | cons i l ih =>
    intro d n hn
    rw [List.foldl_cons, ih _ n (fun h => hn (List.mem_cons_of_mem _ h))]
    unfold fill2Step
    split
    · rfl
    · refine List.getElem?_set_ne (fun h => hn ?_)
      rw [← h]
      exact List.mem_cons_self i l

/-- Any visited in-range position whose index matches no key is overwritten
with the empty entry. -/
theorem fill2_fold_getElem?_mem (keys : List Val) :
    ∀ (l : List Nat) (d : List Entry) (n : Nat), n ∈ l →
      (keys.any fun k => veq (.num (n : ℚ)) k) = false → n < d.length →
      (l.foldl (fill2Step keys) d)[n]? = some emptyEntry := by
  intro l
  induction l with
  | nil => intro d n hn _ _; cases hn
  | cons i l ih =>
    intro d n hn hmatch hlt
    by_cases hnl : n ∈ l
    · exact ih _ n hnl hmatch (by rw [fill2Step_length]; exact hlt)
    · have hni : n = i := by
        rcases List.mem_cons.mp hn with h | h
        · exact h
        · exact absurd h hnl
      subst hni
      rw [List.foldl_cons, fill2_fold_getElem?_not_mem keys l _ n hnl]
      unfold fill2Step
      rw [if_neg (by simp [hmatch])]
      exact List.getElem?_set_self hlt

/-- After the second loop, an in-range slot whose index matches no key holds
the empty entry. -/
theorem fill2_getElem? (keys : List Val) (d : List Entry) (n : Nat)
    (hmatch : (keys.any fun k => veq (.num (n : ℚ)) k) = false)
    (hlt : n < d.length) :
    (fill2 keys d)[n]? = some emptyEntry :=
  fill2_fold_getElem?_mem keys (List.range d.length) d n
    (List.mem_range.mpr hlt) hmatch hlt

/-- The first loop never changes the array length. -/
theorem fill1_ok_length :
    ∀ (posList : List (Val × List Tup6)) (d d' : List Entry),
      fill1 d posList = .ok d' → d'.length = d.length := by
  intro posList
  induction posList with
  | nil =>
    intro d d' h
    injection h with h
    rw [← h]
  | cons kt rest ih =>
    intro d d' h
    unfold fill1 at h
    cases hf : frameToIdx kt.1 d.length with
    | error e => rw [hf] at h; cases h
    | ok i =>
      rw [hf] at h
      have := ih _ _ h
      rwa [List.length_set] at this

/-- Claim C2: in a successfully built movieInfo array, every in-range frame
index matched by no key of the bucket map (a frame with zero detections)
holds a slot, and that slot is the entry whose three fields `xCoord`,
`yCoord`, `amp` are the explicitly empty float64 arrays — not the scalar
zero left by the allocation, and not an absent value. -/
theorem movieInfo_unobserved_frames_empty (posList : List (Val × List Tup6))
    (data : List Entry) (n : Nat)
    (hok : createUtrackMatlabLocalisationFile posList = .ok data)
    (hn : n < data.length)
    (habs : ∀ k ∈ posList.map Prod.fst, veq (.num (n : ℚ)) k = false) :
    data[n]? = some emptyEntry ∧ emptyEntry.xCoord = .emptyFloat ∧
      emptyEntry.yCoord = .emptyFloat ∧ emptyEntry.amp = .emptyFloat := by
  obtain ⟨mv, ms, d1, hmv, hms, hnn, hf, hdata⟩ := createU_ok_shape posList data hok
  subst hdata
  refine ⟨?_, rfl, rfl, rfl⟩
  have hanyf : ((posList.map Prod.fst).any fun k => veq (.num (n : ℚ)) k) = false := by
    rw [List.any_eq_false]
    intro k hk
    simp [habs k hk]
  have hn1 : n < d1.length := by
    have := fill2_fold_length (posList.map Prod.fst) (List.range d1.length) d1
    unfold fill2 at hn
    omega
  exact fill2_getElem? _ d1 n hanyf hn1

/-- Concrete run discharging the hypotheses of
`movieInfo_unobserved_frames_empty`: frames 0 and 2 are observed, the
in-range frame 1 is not, and its slot holds the three empty float arrays. -/
theorem movieInfo_unobserved_frames_empty_witness :
    (createUtrackMatlabLocalisationFile
        [(.num 0, [⟨.num 1, .num 0, .num 2, .num 0, .num 3, .num 0⟩]),
         (.num 2, [⟨.num 5, .num 0, .num 6, .num 0, .num 7, .num 0⟩])] =
        .ok [⟨.pairsArr [(.num 1, .num 0)], .pairsArr [(.num 2, .num 0)],
              .pairsArr [(.num 3, .num 0)]⟩,
             emptyEntry,
             ⟨.pairsArr [(.num 5, .num 0)], .pairsArr [(.num 6, .num 0)],
              .pairsArr [(.num 7, .num 0)]⟩] ∧
     1 < 3 ∧
     (∀ k ∈ [(Val.num 0, ([⟨.num 1, .num 0, .num 2, .num 0, .num 3, .num 0⟩] : List Tup6)),
             (Val.num 2, [⟨.num 5, .num 0, .num 6, .num 0, .num 7, .num 0⟩])].map Prod.fst,
        veq (.num ((1 : Nat) : ℚ)) k = false)) ∧
    ([⟨.pairsArr [(.num 1, .num 0)], .pairsArr [(.num 2, .num 0)],
       .pairsArr [(.num 3, .num 0)]⟩,
      emptyEntry,
      ⟨.pairsArr [(.num 5, .num 0)], .pairsArr [(.num 6, .num 0)],
       .pairsArr [(.num 7, .num 0)]⟩] : List Entry)[1]? = some emptyEntry ∧
      emptyEntry.xCoord = .emptyFloat ∧ emptyEntry.yCoord = .emptyFloat ∧
      emptyEntry.amp = .emptyFloat :=
  ⟨⟨by rfl, by decide, by decide⟩,
   movieInfo_unobserved_frames_empty
     [(.num 0, [⟨.num 1, .num 0, .num 2, .num 0, .num 3, .num 0⟩]),
      (.num 2, [⟨.num 5, .num 0, .num 6, .num 0, .num 7, .num 0⟩])]
     [⟨.pairsArr [(.num 1, .num 0)], .pairsArr [(.num 2, .num 0)],
       .pairsArr [(.num 3, .num 0)]⟩,
      emptyEntry,
      ⟨.pairsArr [(.num 5, .num 0)], .pairsArr [(.num 6, .num 0)],
       .pairsArr [(.num 7, .num 0)]⟩]
     1 (by rfl) (by decide) (by decide)⟩

/-- `np.max` over finite values folds the rational maxima. -/
theorem foldl_vmax_num (qs : List ℚ) : ∀ a : ℚ,
    (qs.map Val.num).foldl vmax (.num a) = .num (qs.foldl max a) := by
  induction qs with
  | nil => intro a; rfl
  | cons q qs ih => intro a; simp [List.foldl_cons, vmax, ih]

/-- Folding rational maxima over natural casts is the cast of the natural
fold. -/
theorem foldl_max_cast (ns : List Nat) : ∀ a : Nat,
    List.foldl max ((a : ℚ)) (List.map (fun n : ℕ => (n : ℚ)) ns) =
      ((ns.foldl max a : Nat) : ℚ) := by
  induction ns with
  | nil => intro a; rfl
  | cons n ns ih =>
    intro a
    rw [List.map_cons, List.foldl_cons, List.foldl_cons, ← Nat.cast_max, ih]

/-- The left fold of the maximum bounds the seed and every element. -/
theorem le_foldl_max (ns : List Nat) : ∀ a : Nat,
    a ≤ ns.foldl max a ∧ ∀ x ∈ ns, x ≤ ns.foldl max a := by
  induction ns with
  | nil => intro a; exact ⟨le_refl a, by simp⟩
  | cons n ns ih =>
    intro a
    obtain ⟨h1, h2⟩ := ih (max a n)
    refine ⟨le_trans (le_max_left a n) h1, ?_⟩
    intro x hx
    rcases List.mem_cons.mp hx with rfl | hx
    · exact le_trans (le_max_right a x) h1
    · exact h2 x hx

/-- The left fold of the maximum is below any common bound. -/
theorem foldl_max_le (ns : List Nat) : ∀ a m : Nat, a ≤ m →
    (∀ x ∈ ns, x ≤ m) → ns.foldl max a ≤ m := by
  induction ns with
  | nil => intro a m h _; exact h
  | cons n ns ih =>
    intro a m ha hall
    exact ih _ m (max_le ha (hall n (List.mem_cons_self n ns)))
      (fun x hx => hall x (List.mem_cons_of_mem n hx))

/-- Python `int` of a float holding a natural number. -/
theorem truncQ_natCast (m : Nat) : truncQ ((m : Nat) : ℚ) = (m : Int) := by
  unfold truncQ
  rw [Rat.num_natCast, Rat.den_natCast]
  simp

/-- Claim C3: for every non-empty bucket map whose keys are finite
natural-number frames, the movieInfo array produced by
`createUtrackMatlabLocalisationFile` has length exactly maxFrame + 1, where
maxFrame is the largest frame key present in the map. -/
theorem movieInfo_length_max_frame_succ (posList : List (Val × List Tup6))
    (ns : List Nat) (mfr : Nat) (data : List Entry)
    (hkeys : posList.map Prod.fst = ns.map (fun n : ℕ => Val.num (n : ℚ)))
    (hmem : mfr ∈ ns) (hmax : ∀ n ∈ ns, n ≤ mfr)
    (hok : createUtrackMatlabLocalisationFile posList = .ok data) :
    data.length = mfr + 1 := by
  obtain ⟨mv, ms, d1, hmv, hms, hnn, hf, hdata⟩ := createU_ok_shape posList data hok
  cases ns with
  | nil => cases hmem
  | cons n0 ns' =>
    have hM : ns'.foldl max n0 = mfr := by
      refine le_antisymm ?_ ?_
      · exact foldl_max_le ns' n0 mfr (hmax n0 (List.mem_cons_self n0 ns'))
          (fun x hx => hmax x (List.mem_cons_of_mem n0 hx))
      · rcases List.mem_cons.mp hmem with rfl | hmem'
        · exact (le_foldl_max ns' mfr).1
        · exact (le_foldl_max ns' n0).2 mfr hmem'
    have hmv' : npMax (posList.map Prod.fst) = .ok (.num ((mfr : ℕ) : ℚ)) := by
      rw [hkeys, List.map_cons]
      show Except.ok ((ns'.map fun n : ℕ => Val.num (n : ℚ)).foldl vmax
        (Val.num ((n0 : ℕ) : ℚ))) = _
      rw [show (ns'.map fun n : ℕ => Val.num (n : ℚ)) =
            ((List.map (fun n : ℕ => (n : ℚ)) ns').map Val.num) by
          rw [List.map_map]; rfl]
      rw [foldl_vmax_num, foldl_max_cast, hM]
    rw [hmv'] at hmv
    injection hmv with hmveq
    subst hmveq
    unfold toMatrixSize at hms
    injection hms with hmseq
    rw [truncQ_natCast] at hmseq
    have hms' : ms.toNat = mfr + 1 := by omega
    have hd1 : d1.length = mfr + 1 := by
      have := fill1_ok_length posList (List.replicate ms.toNat initialEntry) d1 hf
      rw [List.length_replicate, hms'] at this
      exact this
    rw [hdata]
    unfold fill2
    rw [fill2_fold_length, hd1]

/-- Concrete run discharging the hypotheses of
`movieInfo_length_max_frame_succ`: keys 0 and 2, so maxFrame = 2 and the
array has 3 slots. -/
theorem movieInfo_length_max_frame_succ_witness :
    ([(Val.num 0, ([⟨.num 1, .num 0, .num 2, .num 0, .num 3, .num 0⟩] : List Tup6)),
      (Val.num 2, [⟨.num 5, .num 0, .num 6, .num 0, .num 7, .num 0⟩])].map Prod.fst =
        [0, 2].map (fun n : ℕ => Val.num (n : ℚ)) ∧
     2 ∈ [0, 2] ∧ (∀ n ∈ [0, 2], n ≤ 2) ∧
     createUtrackMatlabLocalisationFile
       [(.num 0, [⟨.num 1, .num 0, .num 2, .num 0, .num 3, .num 0⟩]),
        (.num 2, [⟨.num 5, .num 0, .num 6, .num 0, .num 7, .num 0⟩])] =
       .ok [⟨.pairsArr [(.num 1, .num 0)], .pairsArr [(.num 2, .num 0)],
             .pairsArr [(.num 3, .num 0)]⟩,
            emptyEntry,
            ⟨.pairsArr [(.num 5, .num 0)], .pairsArr [(.num 6, .num 0)],
             .pairsArr [(.num 7, .num 0)]⟩]) ∧
    ([⟨.pairsArr [(.num 1, .num 0)], .pairsArr [(.num 2, .num 0)],
       .pairsArr [(.num 3, .num 0)]⟩,
      emptyEntry,
      ⟨.pairsArr [(.num 5, .num 0)], .pairsArr [(.num 6, .num 0)],
       .pairsArr [(.num 7, .num 0)]⟩] : List Entry).length = 2 + 1 :=
  ⟨⟨by decide, by decide, by decide, by rfl⟩,
   movieInfo_length_max_frame_succ
     [(.num 0, [⟨.num 1, .num 0, .num 2, .num 0, .num 3, .num 0⟩]),
      (.num 2, [⟨.num 5, .num 0, .num 6, .num 0, .num 7, .num 0⟩])]
     [0, 2] 2
     [⟨.pairsArr [(.num 1, .num 0)], .pairsArr [(.num 2, .num 0)],
       .pairsArr [(.num 3, .num 0)]⟩,
      emptyEntry,
      ⟨.pairsArr [(.num 5, .num 0)], .pairsArr [(.num 6, .num 0)],
       .pairsArr [(.num 7, .num 0)]⟩]
     (by decide) (by decide) (by decide) (by rfl)⟩

/-- The x and y cells of a row after the pixel-size division, for a
rectangular row with in-range, distinct x and y column indices. -/
theorem pixelStep_fields (w xi yi : Nat) (ps : ℚ) (r : List Val)
    (hr : r.length = w) (hxiw : xi < w) (hyiw : yi < w) (hxy : xi ≠ yi) :
    (pixelStep xi yi ps r).getD xi .nan = vdiv (r.getD xi .nan) (.num ps) ∧
    (pixelStep xi yi ps r).getD yi .nan = vdiv (r.getD yi .nan) (.num ps) := by
  unfold pixelStep
  constructor
  · rw [getD_set_ne _ _ _ _ _ (Ne.symm hxy)]
    exact getD_set_self _ _ _ _ (by omega)
  · exact getD_set_self _ _ _ _ (by rw [List.length_set]; omega)

/-- Untouched cells of a row after the pixel-size division. -/
theorem pixelStep_other (xi yi j : Nat) (ps : ℚ) (r : List Val)
    (hjx : xi ≠ j) (hjy : yi ≠ j) :
    (pixelStep xi yi ps r).getD j .nan = r.getD j .nan := by
  unfold pixelStep
  rw [getD_set_ne _ _ _ _ _ hjy, getD_set_ne _ _ _ _ _ hjx]

/-- Field values of one fully processed rapidSTORM row in terms of the raw
input row, for a rectangular row of width `w` with in-range indices that
are distinct where the in-place updates could interfere. -/
theorem rs_row_fields (w ai li xi yi : Nat) (pc ps : ℚ) (r : List Val)
    (hr : r.length = w) (haiw : ai < w) (hxiw : xi < w) (hyiw : yi < w)
    (hax : ai ≠ xi) (hay : ai ≠ yi) (hxy : xi ≠ yi) :
    (pixelStep xi yi ps (photonStep ai pc (nanColStep (snrStep ai li r)))).getD
        xi .nan = vdiv (r.getD xi .nan) (.num ps) ∧
    (pixelStep xi yi ps (photonStep ai pc (nanColStep (snrStep ai li r)))).getD
        yi .nan = vdiv (r.getD yi .nan) (.num ps) ∧
    (pixelStep xi yi ps (photonStep ai pc (nanColStep (snrStep ai li r)))).getD
        ai .nan = vdiv (r.getD ai .nan) (.num pc) ∧
    (pixelStep xi yi ps (photonStep ai pc (nanColStep (snrStep ai li r)))).getD
        w .nan = vdiv (r.getD ai .nan) (r.getD li .nan) := by
  have hl1 : (snrStep ai li r).length = w + 1 := by
    simp [snrStep, hr]
  have hl2 : (nanColStep (snrStep ai li r)).length = w + 2 := by
    simp [nanColStep, snrStep, hr]
  have hl3 : (photonStep ai pc (nanColStep (snrStep ai li r))).length = w + 2 := by
    rw [photonStep, List.length_set, hl2]
  have hg1 : ∀ j, j < w → (snrStep ai li r).getD j .nan = r.getD j .nan := by
    intro j hj
    exact getD_append_lt _ _ _ _ (by omega)
  have hg1w : (snrStep ai li r).getD w .nan =
      vdiv (r.getD ai .nan) (r.getD li .nan) := by
    unfold snrStep
    rw [← hr]
    exact getD_append_len _ _ _
  have hg2 : ∀ j, j ≤ w →
      (nanColStep (snrStep ai li r)).getD j .nan = (snrStep ai li r).getD j .nan := by
    intro j hj
    exact getD_append_lt _ _ _ _ (by omega)
  have hg3 : ∀ j, j ≠ ai →
      (photonStep ai pc (nanColStep (snrStep ai li r))).getD j .nan =
        (nanColStep (snrStep ai li r)).getD j .nan := by
    intro j hne
    exact getD_set_ne _ _ _ _ _ (fun h => hne h.symm)
  have hg3a : (photonStep ai pc (nanColStep (snrStep ai li r))).getD ai .nan =
      vdiv ((nanColStep (snrStep ai li r)).getD ai .nan) (.num pc) := by
    unfold photonStep
    exact getD_set_self _ _ _ _ (by omega)
  obtain ⟨hpx, hpy⟩ := pixelStep_fields (w + 2) xi yi ps
    (photonStep ai pc (nanColStep (snrStep ai li r))) hl3 (by omega) (by omega) hxy
  refine ⟨?_, ?_, ?_, ?_⟩
  · rw [hpx, hg3 xi (Ne.symm hax), hg2 xi (by omega), hg1 xi hxiw]
  · rw [hpy, hg3 yi (Ne.symm hay), hg2 yi (by omega), hg1 yi hyiw]
  · rw [pixelStep_other xi yi ai ps _ (Ne.symm hax) (Ne.symm hay), hg3a,
      hg2 ai (by omega), hg1 ai haiw]
  · rw [pixelStep_other xi yi w ps _ (by omega) (by omega),
      hg3 w (by omega), hg2 w (by omega), hg1w]

/-- A successful rapidSTORM read is the per-row column selection over the
per-row processed body. -/
theorem readRapidStorm_ok_rows (idents : List String) (body : List (List Val))
    (pc ps : ℚ) (out : List RSRow) (xi yi ai ii li : Nat)
    (hxi : (parseRSHeader idents).xPosition = some xi)
    (hyi : (parseRSHeader idents).yPosition = some yi)
    (hai : (parseRSHeader idents).amplitude = some ai)
    (hii : (parseRSHeader idents).imageNumber = some ii)
    (hli : (parseRSHeader idents).localBackground = some li)
    (hok : readRapidStormLocalisations idents body pc ps = .ok out) :
    ∃ xU yU fr,
      out = body.map (fun r => rsSelect xi yi xU yU ai ii fr
        (body.headD []).length
        (pixelStep xi yi ps (photonStep ai pc (nanColStep (snrStep ai li r))))) := by
  unfold readRapidStormLocalisations at hok
  simp only [hxi, hyi, hai, hii, hli] at hok
  split at hok
  · cases hok
  · rename_i xU yU heq1
    split at hok
    · cases hok
    · injection hok with h
      refine ⟨xU, yU, ((parseRSHeader idents).fitResidues).getD
        ((body.headD []).length + 1), ?_⟩
      rw [← h]
      simp only [List.map_map]
      rfl

/-- Claim C10: in the rapidSTORM reader the SNR column is computed from the
raw amplitude before photon conversion: for every row the output SNR equals
the amplitude as read from the file divided by the raw local background,
unchanged under any photonConversion factor, while the output Photon Count
column is the raw amplitude divided by photonConversion. -/
theorem rapidStorm_snr_from_raw_amplitude (idents : List String)
    (body : List (List Val)) (pc ps : ℚ) (out : List RSRow)
    (w xi yi ai ii li : Nat)
    (hw0 : (body.headD []).length = w)
    (hw : ∀ r ∈ body, r.length = w)
    (hxi : (parseRSHeader idents).xPosition = some xi)
    (hyi : (parseRSHeader idents).yPosition = some yi)
    (hai : (parseRSHeader idents).amplitude = some ai)
    (hii : (parseRSHeader idents).imageNumber = some ii)
    (hli : (parseRSHeader idents).localBackground = some li)
    (haiw : ai < w) (hliw : li < w) (hxiw : xi < w) (hyiw : yi < w)
    (hax : ai ≠ xi) (hay : ai ≠ yi) (hxy : xi ≠ yi)
    (hok : readRapidStormLocalisations idents body pc ps = .ok out) :
    out.length = body.length ∧
    ∀ i, i < body.length → ∃ row, out[i]? = some row ∧
      row.snr = vdiv ((body.getD i []).getD ai .nan)
        ((body.getD i []).getD li .nan) ∧
      row.photonCount = vdiv ((body.getD i []).getD ai .nan) (.num pc) ∧
      ∀ (pc' : ℚ) (out' : List RSRow),
        readRapidStormLocalisations idents body pc' ps = .ok out' →
          (out'[i]?).map RSRow.snr = some row.snr := by
  obtain ⟨xU, yU, fr, hshape⟩ := readRapidStorm_ok_rows idents body pc ps out
    xi yi ai ii li hxi hyi hai hii hli hok
  subst hshape
  refine ⟨by simp, ?_⟩
  intro i hi
  have hbody : body[i]? = some (body.getD i []) := getElem?_eq_some_getD body i [] hi
  have hmem : body.getD i [] ∈ body := getD_mem body i [] hi
  have hr : (body.getD i []).length = w := hw _ hmem
  obtain ⟨hfx, hfy, hfa, hfs⟩ := rs_row_fields w ai li xi yi pc ps
    (body.getD i []) hr haiw hxiw hyiw hax hay hxy
  have e2 : (rsSelect xi yi xU yU ai ii fr (body.headD []).length
      (pixelStep xi yi ps (photonStep ai pc (nanColStep
        (snrStep ai li (body.getD i [])))))).snr =
      vdiv ((body.getD i []).getD ai .nan) ((body.getD i []).getD li .nan) := by
    simp only [rsSelect]
    rw [hw0]
    exact hfs
  refine ⟨rsSelect xi yi xU yU ai ii fr (body.headD []).length
    (pixelStep xi yi ps (photonStep ai pc (nanColStep
      (snrStep ai li (body.getD i []))))), ?_, ?_, ?_, ?_⟩
  · rw [List.getElem?_map, hbody]
    rfl
  · exact e2
  · simp only [rsSelect]
    exact hfa
  · intro pc' out' hok'
    obtain ⟨xU', yU', fr', hshape'⟩ := readRapidStorm_ok_rows idents body pc' ps
      out' xi yi ai ii li hxi hyi hai hii hli hok'
    subst hshape'
    obtain ⟨hfx', hfy', hfa', hfs'⟩ := rs_row_fields w ai li xi yi pc' ps
      (body.getD i []) hr haiw hxiw hyiw hax hay hxy
    have e1 : (rsSelect xi yi xU' yU' ai ii fr' (body.headD []).length
        (pixelStep xi yi ps (photonStep ai pc' (nanColStep
          (snrStep ai li (body.getD i [])))))).snr =
        vdiv ((body.getD i []).getD ai .nan) ((body.getD i []).getD li .nan) := by
      simp only [rsSelect]
      rw [hw0]
      exact hfs'
    rw [List.getElem?_map, hbody]
    simp only [Option.map_some']
    rw [e1, e2]

/-- Concrete run discharging the hypotheses of
`rapidStorm_snr_from_raw_amplitude`: with photonConversion 1 and a first row
whose raw amplitude is 10 and local background 2, the SNR is 10 / 2 while
the photon count is 10 / 1. -/
theorem rapidStorm_snr_from_raw_amplitude_witness :
    (((([[.num 100, .num 200, .num 10, .num 0, .num 2],
         [.num 50, .num 60, .num 8, .num 1, .num 4]] : List (List Val)).headD []).length = 5 ∧
      (∀ r ∈ ([[.num 100, .num 200, .num 10, .num 0, .num 2],
               [.num 50, .num 60, .num 8, .num 1, .num 4]] : List (List Val)),
        r.length = 5) ∧
      (parseRSHeader ["Position-0-0", "Position-1-0", "Amplitude-0-0",
        "ImageNumber-0-0", "LocalBackground-0-0"]).xPosition = some 0 ∧
      (parseRSHeader ["Position-0-0", "Position-1-0", "Amplitude-0-0",
        "ImageNumber-0-0", "LocalBackground-0-0"]).localBackground = some 4 ∧
      readRapidStormLocalisations
        ["Position-0-0", "Position-1-0", "Amplitude-0-0", "ImageNumber-0-0",
         "LocalBackground-0-0"]
        [[.num 100, .num 200, .num 10, .num 0, .num 2],
         [.num 50, .num 60, .num 8, .num 1, .num 4]] 1 1 =
        .ok [⟨vdiv (.num 100) (.num 1), vdiv (.num 200) (.num 1), .nan, .nan,
              vdiv (.num 10) (.num 1), .num 0, .nan, vdiv (.num 10) (.num 2)⟩,
             ⟨vdiv (.num 50) (.num 1), vdiv (.num 60) (.num 1), .nan, .nan,
              vdiv (.num 8) (.num 1), .num 1, .nan, vdiv (.num 8) (.num 4)⟩]) ∧
     0 < 2) ∧
    (∃ row, ([⟨vdiv (.num 100) (.num 1), vdiv (.num 200) (.num 1), .nan, .nan,
              vdiv (.num 10) (.num 1), .num 0, .nan, vdiv (.num 10) (.num 2)⟩,
             ⟨vdiv (.num 50) (.num 1), vdiv (.num 60) (.num 1), .nan, .nan,
              vdiv (.num 8) (.num 1), .num 1, .nan, vdiv (.num 8) (.num 4)⟩] :
        List RSRow)[0]? = some row ∧
      row.snr = vdiv (.num 10) (.num 2) ∧
      row.photonCount = vdiv (.num 10) (.num 1) ∧
      ∀ (pc' : ℚ) (out' : List RSRow),
        readRapidStormLocalisations
          ["Position-0-0", "Position-1-0", "Amplitude-0-0", "ImageNumber-0-0",
           "LocalBackground-0-0"]
          [[.num 100, .num 200, .num 10, .num 0, .num 2],
           [.num 50, .num 60, .num 8, .num 1, .num 4]] pc' 1 = .ok out' →
          (out'[0]?).map RSRow.snr = some row.snr) :=
  ⟨⟨⟨rfl, by decide, rfl, rfl, rfl⟩, by decide⟩,
   (rapidStorm_snr_from_raw_amplitude
     ["Position-0-0", "Position-1-0", "Amplitude-0-0", "ImageNumber-0-0",
      "LocalBackground-0-0"]
     [[.num 100, .num 200, .num 10, .num 0, .num 2],
      [.num 50, .num 60, .num 8, .num 1, .num 4]] 1 1
     [⟨vdiv (.num 100) (.num 1), vdiv (.num 200) (.num 1), .nan, .nan,
       vdiv (.num 10) (.num 1), .num 0, .nan, vdiv (.num 10) (.num 2)⟩,
      ⟨vdiv (.num 50) (.num 1), vdiv (.num 60) (.num 1), .nan, .nan,
       vdiv (.num 8) (.num 1), .num 1, .nan, vdiv (.num 8) (.num 4)⟩]
     5 0 1 2 3 4 rfl (by decide) rfl rfl rfl rfl rfl
     (by decide) (by decide) (by decide) (by decide)
     (by decide) (by decide) (by decide) rfl).2 0 (by decide)⟩

/-- A successful xyt read is the pixel division applied to the rows permuted
by the argsort permutation. -/
theorem readXYT_ok_rows (header : List String) (body : List (List Val))
    (perm : List Nat) (ps : ℚ) (out : List (List Val))
    (hok : readXYTLocalisations header body perm ps = .ok out) :
    out = (perm.map (fun i => body.getD i [])).map
      (pixelStep (header.findIdx (· == "x")) (header.findIdx (· == "y")) ps) := by
  simp only [readXYTLocalisations] at hok
  split at hok
  · split at hok
    · cases hok
    · injection hok with h
      exact h.symm
  · cases hok

/-- Claim C7: both readers divide the x and y coordinates of every input
row by pixelSize (exactly, in the rational model, hence within any
tolerance such as 1e-9), and the rapidSTORM reader additionally divides
the amplitude column by the photon-conversion factor. -/
theorem readers_divide_pixelSize_photonConversion
    (header : List String) (body : List (List Val)) (perm : List Nat)
    (ps : ℚ) (w xi yi : Nat) (out : List (List Val))
    (hxi : header.findIdx (· == "x") = xi)
    (hyi : header.findIdx (· == "y") = yi)
    (hw : ∀ r ∈ body, r.length = w) (hxiw : xi < w) (hyiw : yi < w)
    (hxy : xi ≠ yi)
    (hperm : perm.Perm (List.range body.length))
    (hok : readXYTLocalisations header body perm ps = .ok out)
    (idents : List String) (rsbody : List (List Val)) (pc : ℚ)
    (rsout : List RSRow) (w' rxi ryi rai rii rli : Nat)
    (hw0' : (rsbody.headD []).length = w')
    (hw' : ∀ r ∈ rsbody, r.length = w')
    (hrxi : (parseRSHeader idents).xPosition = some rxi)
    (hryi : (parseRSHeader idents).yPosition = some ryi)
    (hrai : (parseRSHeader idents).amplitude = some rai)
    (hrii : (parseRSHeader idents).imageNumber = some rii)
    (hrli : (parseRSHeader idents).localBackground = some rli)
    (hraiw : rai < w') (hrxiw : rxi < w') (hryiw : ryi < w')
    (hrax : rai ≠ rxi) (hray : rai ≠ ryi) (hrxy : rxi ≠ ryi)
    (hok' : readRapidStormLocalisations idents rsbody pc ps = .ok rsout) :
    (∀ j, j < body.length → ∃ (i : Nat) (r' : List Val), out[i]? = some r' ∧
      r'.getD xi .nan = vdiv ((body.getD j []).getD xi .nan) (.num ps) ∧
      r'.getD yi .nan = vdiv ((body.getD j []).getD yi .nan) (.num ps)) ∧
    (∀ i, i < rsbody.length → ∃ row, rsout[i]? = some row ∧
      row.x = vdiv ((rsbody.getD i []).getD rxi .nan) (.num ps) ∧
      row.y = vdiv ((rsbody.getD i []).getD ryi .nan) (.num ps) ∧
      row.photonCount = vdiv ((rsbody.getD i []).getD rai .nan) (.num pc)) := by
  constructor
  · have hshape := readXYT_ok_rows header body perm ps out hok
    rw [hxi, hyi] at hshape
    subst hshape
    intro j hj
    have hjr : j ∈ perm := (hperm.mem_iff).mpr (List.mem_range.mpr hj)
    obtain ⟨⟨i, hi⟩, hget⟩ := List.mem_iff_get.mp hjr
    have hpi : perm[i]? = some j := by
      rw [List.getElem?_eq_getElem hi]
      exact congrArg some hget
    have hmem : body.getD j [] ∈ body := getD_mem body j [] hj
    obtain ⟨h1, h2⟩ := pixelStep_fields w xi yi ps (body.getD j [])
      (hw _ hmem) hxiw hyiw hxy
    refine ⟨i, pixelStep xi yi ps (body.getD j []), ?_, h1, h2⟩
    rw [List.getElem?_map, List.getElem?_map, hpi]
    rfl
  · obtain ⟨xU, yU, fr, hshape⟩ := readRapidStorm_ok_rows idents rsbody pc ps
      rsout rxi ryi rai rii rli hrxi hryi hrai hrii hrli hok'
    subst hshape
    intro i hi
    have hbody : rsbody[i]? = some (rsbody.getD i []) :=
      getElem?_eq_some_getD rsbody i [] hi
    have hr : (rsbody.getD i []).length = w' := hw' _ (getD_mem rsbody i [] hi)
    obtain ⟨hfx, hfy, hfa, hfs⟩ := rs_row_fields w' rai rli rxi ryi pc ps
      (rsbody.getD i []) hr hraiw hrxiw hryiw hrax hray hrxy
    refine ⟨rsSelect rxi ryi xU yU rai rii fr (rsbody.headD []).length
      (pixelStep rxi ryi ps (photonStep rai pc (nanColStep
        (snrStep rai rli (rsbody.getD i []))))), ?_, ?_, ?_, ?_⟩
    · rw [List.getElem?_map, hbody]
      rfl
    · simp only [rsSelect]
      exact hfx
    · simp only [rsSelect]
      exact hfy
    · simp only [rsSelect]
      exact hfa

/-- Concrete run discharging the hypotheses of
`readers_divide_pixelSize_photonConversion`: with pixelSize 2 every output
x equals the input x divided by 2 in both readers, and with
photonConversion 2 the rapidSTORM photon count is the raw amplitude
divided by 2. -/
theorem readers_divide_pixelSize_photonConversion_witness :
    ((["x", "y", "frame"].findIdx (· == "x") = 0 ∧
      ["x", "y", "frame"].findIdx (· == "y") = 1 ∧
      (∀ r ∈ ([[.num 10, .num 20, .num 1], [.num 4, .num 6, .num 0]] :
        List (List Val)), r.length = 3) ∧
      ([1, 0] : List Nat).Perm (List.range 2) ∧
      readXYTLocalisations ["x", "y", "frame"]
        [[.num 10, .num 20, .num 1], [.num 4, .num 6, .num 0]] [1, 0] 2 =
        .ok [[vdiv (.num 4) (.num 2), vdiv (.num 6) (.num 2), .num 0],
             [vdiv (.num 10) (.num 2), vdiv (.num 20) (.num 2), .num 1]] ∧
      readRapidStormLocalisations
        ["Position-0-0", "Position-0-0-uncertainty", "Position-1-0",
         "Position-1-0-uncertainty", "Amplitude-0-0", "ImageNumber-0-0",
         "LocalBackground-0-0"]
        [[.num 10, .num 1, .num 20, .num 1, .num 8, .num 0, .num 4],
         [.num 30, .num 1, .num 40, .num 1, .num 6, .num 1, .num 3]] 2 2 =
        .ok [⟨vdiv (.num 10) (.num 2), vdiv (.num 20) (.num 2), .num 1, .num 1,
              vdiv (.num 8) (.num 2), .num 0, .nan, vdiv (.num 8) (.num 4)⟩,
             ⟨vdiv (.num 30) (.num 2), vdiv (.num 40) (.num 2), .num 1, .num 1,
              vdiv (.num 6) (.num 2), .num 1, .nan, vdiv (.num 6) (.num 3)⟩]) ∧
     0 < 2) ∧
    ((∃ (i : Nat) (r' : List Val),
        ([[vdiv (.num 4) (.num 2), vdiv (.num 6) (.num 2), .num 0],
          [vdiv (.num 10) (.num 2), vdiv (.num 20) (.num 2), .num 1]] :
          List (List Val))[i]? = some r' ∧
        r'.getD 0 .nan = vdiv (.num 10) (.num 2) ∧
        r'.getD 1 .nan = vdiv (.num 20) (.num 2)) ∧
     (∃ row, ([⟨vdiv (.num 10) (.num 2), vdiv (.num 20) (.num 2), .num 1, .num 1,
                vdiv (.num 8) (.num 2), .num 0, .nan, vdiv (.num 8) (.num 4)⟩,
               ⟨vdiv (.num 30) (.num 2), vdiv (.num 40) (.num 2), .num 1, .num 1,
                vdiv (.num 6) (.num 2), .num 1, .nan, vdiv (.num 6) (.num 3)⟩] :
          List RSRow)[0]? = some row ∧
        row.x = vdiv (.num 10) (.num 2) ∧
        row.y = vdiv (.num 20) (.num 2) ∧
        row.photonCount = vdiv (.num 8) (.num 2))) :=
  ⟨⟨⟨rfl, rfl, by decide, by decide, rfl, rfl⟩, by decide⟩,
   ⟨(readers_divide_pixelSize_photonConversion
       ["x", "y", "frame"]
       [[.num 10, .num 20, .num 1], [.num 4, .num 6, .num 0]] [1, 0] 2 3 0 1
       [[vdiv (.num 4) (.num 2), vdiv (.num 6) (.num 2), .num 0],
        [vdiv (.num 10) (.num 2), vdiv (.num 20) (.num 2), .num 1]]
       rfl rfl (by decide) (by decide) (by decide) (by decide) (by decide) rfl
       ["Position-0-0", "Position-0-0-uncertainty", "Position-1-0",
        "Position-1-0-uncertainty", "Amplitude-0-0", "ImageNumber-0-0",
        "LocalBackground-0-0"]
       [[.num 10, .num 1, .num 20, .num 1, .num 8, .num 0, .num 4],
        [.num 30, .num 1, .num 40, .num 1, .num 6, .num 1, .num 3]] 2
       [⟨vdiv (.num 10) (.num 2), vdiv (.num 20) (.num 2), .num 1, .num 1,
         vdiv (.num 8) (.num 2), .num 0, .nan, vdiv (.num 8) (.num 4)⟩,
        ⟨vdiv (.num 30) (.num 2), vdiv (.num 40) (.num 2), .num 1, .num 1,
         vdiv (.num 6) (.num 2), .num 1, .nan, vdiv (.num 6) (.num 3)⟩]
       7 0 2 4 5 6 rfl (by decide) rfl rfl rfl rfl rfl
       (by decide) (by decide) (by decide) (by decide) (by decide) (by decide)
       rfl).1 0 (by decide),
    (readers_divide_pixelSize_photonConversion
       ["x", "y", "frame"]
       [[.num 10, .num 20, .num 1], [.num 4, .num 6, .num 0]] [1, 0] 2 3 0 1
       [[vdiv (.num 4) (.num 2), vdiv (.num 6) (.num 2), .num 0],
        [vdiv (.num 10) (.num 2), vdiv (.num 20) (.num 2), .num 1]]
       rfl rfl (by decide) (by decide) (by decide) (by decide) (by decide) rfl
       ["Position-0-0", "Position-0-0-uncertainty", "Position-1-0",
        "Position-1-0-uncertainty", "Amplitude-0-0", "ImageNumber-0-0",
        "LocalBackground-0-0"]
       [[.num 10, .num 1, .num 20, .num 1, .num 8, .num 0, .num 4],
        [.num 30, .num 1, .num 40, .num 1, .num 6, .num 1, .num 3]] 2
       [⟨vdiv (.num 10) (.num 2), vdiv (.num 20) (.num 2), .num 1, .num 1,
         vdiv (.num 8) (.num 2), .num 0, .nan, vdiv (.num 8) (.num 4)⟩,
        ⟨vdiv (.num 30) (.num 2), vdiv (.num 40) (.num 2), .num 1, .num 1,
         vdiv (.num 6) (.num 2), .num 1, .nan, vdiv (.num 6) (.num 3)⟩]
       7 0 2 4 5 6 rfl (by decide) rfl rfl rfl rfl rfl
       (by decide) (by decide) (by decide) (by decide) (by decide) (by decide)
       rfl).2 0 (by decide)⟩⟩
